import Mathlib

/-!
Verification of the instance-metadata client (instance.go) of a Mastodon
API library.

The Go source under analysis defines plain record types (Instance,
InstanceV2, InstanceConfig, InstanceStats, WeeklyActivity, Rule) with
encoding/json struct tags, four client operations (GetInstance,
GetInstanceV2, GetInstanceActivity, GetInstancePeers) that each perform a
single call to the generic API helper doAPI, and the accessor
Instance.GetConfig.

Modelling conventions:
- JSON bodies are modelled at the value-tree level (the Json inductive
  below), not as character strings: the text layer (whitespace, number
  formatting, string escaping) is invertible and orthogonal to every claim.
- Go machine integers (int64, int) are modelled as Int with the explicit
  int64 range check that encoding/json performs on overflow.
- Go nil pointers, nil maps and nil slices are modelled as none; a decoded
  map is an association list with distinct keys (Go map semantics:
  duplicate JSON keys collapse, the last occurrence wins, realised by
  dedupLast below).
- Dynamic values (Go interface types) are modelled as the Json tree
  itself. One abstraction: inside such a dynamic value, nested objects
  are kept as field lists as received rather than re-collapsed to maps.
- doAPI, Unixtime and Account belong to this repository but are outside
  the analysed files; they are modelled from the spec where definitions
  below say so. doAPI is treated as an oracle parameter: each operation is
  a function of the oracle returning its result together with the list of
  requests issued, so that single-invocation and propagation claims are
  expressible.
-/

namespace MastodonSpec

/-- A JSON value tree. Numbers are modelled as integers: every numeric
field of the analysed schema is integral, and Go's float64 text round
trip is exact, so the text layer loses nothing. -/
inductive Json where
  | null : Json
  | bool : Bool → Json
  | num : Int → Json
  | str : String → Json
  | arr : List Json → Json
  | obj : List (String × Json) → Json
deriving Repr

/-- A decode failure raised by the JSON layer. Messages are irrelevant to
the claims; only the error/success distinction matters. -/
structure DecErr where
  msg : String
deriving Repr, DecidableEq

/-- An error surfaced by the API caller: transport failure, non-2xx
status, or a decode failure. -/
inductive APIError where
  | transport : String → APIError
  | httpStatus : Int → APIError
  | decode : DecErr → APIError
deriving Repr, DecidableEq

/-- The argument tuple of one doAPI invocation as issued by the client
operations: HTTP method, request path, request parameters (nil in all
four operations) and pagination (nil in all four operations). -/
structure APIRequest where
  method : String
  uri : String
  params : Option Json
  pagination : Option Unit
deriving Repr

/-- Modelled from the spec: doAPI (outside the analysed files) performs
the HTTP call, checks the status and decodes the body into the
destination; here it is an oracle from the request to either an error or
the decoded destination value. -/
def DoAPI (α : Type) : Type := APIRequest → Except APIError α

/-- InstanceStats from the source: user, status and domain counts
(Go int64). -/
structure InstanceStats where
  UserCount : Int
  StatusCount : Int
  DomainCount : Int
deriving Repr, DecidableEq

/-- InstanceConfigMap from the source: map with string keys and dynamic
values, modelled as an association list of Json values. -/
def InstanceConfigMap : Type := List (String × Json)
deriving Repr

/-- InstanceConfig from the source. Accounts, Statuses and Polls are
pointers to InstanceConfigMap in Go; MediaAttachments is a bare map.
A nil pointer and a nil map are both none. -/
structure InstanceConfig where
  Accounts : Option InstanceConfigMap
  Statuses : Option InstanceConfigMap
  MediaAttachments : Option InstanceConfigMap
  Polls : Option InstanceConfigMap
deriving Repr

/-- Modelled from the spec: the repository's Account record is outside
the analysed files; the spec and the tests exercise only its username
field, so it is modelled with that field. -/
structure Account where
  Username : String
deriving Repr, DecidableEq

/-- Instance from the source, fields in declaration order with their
json tags: uri, title, description, email, version (omitempty),
thumbnail (omitempty), urls (omitempty, map), stats (omitempty, pointer),
languages (slice), contact_account (pointer), configuration (pointer). -/
structure Instance where
  URI : String
  Title : String
  Description : String
  EMail : String
  Version : String
  Thumbnail : String
  URLs : Option (List (String × String))
  Stats : Option InstanceStats
  Languages : Option (List String)
  ContactAccount : Option Account
  Configuration : Option InstanceConfig
deriving Repr

/-- The Go zero value of Instance: empty strings, nil maps, pointers and
slices. This is the state of the destination variable before doAPI
decodes into it. -/
def Instance.zero : Instance :=
  ⟨"", "", "", "", "", "", none, none, none, none, none⟩

/-- GetConfig from the source: returns the Configuration field. -/
def Instance.GetConfig (c : Instance) : Option InstanceConfig :=
  c.Configuration

/-- Rule from the source: id and text. -/
structure Rule where
  ID : String
  Text : String
deriving Repr, DecidableEq

/-- Usage.Users of InstanceV2 from the source. -/
structure InstanceV2Users where
  ActiveMonth : Int
deriving Repr, DecidableEq

/-- Usage of InstanceV2 from the source. -/
structure InstanceV2Usage where
  Users : InstanceV2Users
deriving Repr, DecidableEq

/-- Thumbnail.Versions of InstanceV2 from the source; the two variants
are dynamic values. -/
structure InstanceV2ThumbnailVersions where
  One_X : Json
  Two_X : Json
deriving Repr

/-- Thumbnail of InstanceV2 from the source. -/
structure InstanceV2Thumbnail where
  URL : String
  Blurhash : Json
  Versions : InstanceV2ThumbnailVersions
deriving Repr

/-- Configuration.Urls of InstanceV2 from the source. -/
structure InstanceV2Urls where
  Streaming : String
deriving Repr, DecidableEq

/-- Configuration.Accounts of InstanceV2 from the source. -/
structure InstanceV2Accounts where
  MaxFeaturedTags : Int
deriving Repr, DecidableEq

/-- Configuration.Statuses of InstanceV2 from the source. -/
structure InstanceV2Statuses where
  MaxCharacters : Int
  MaxMediaAttachments : Int
  CharactersReservedPerURL : Int
deriving Repr, DecidableEq

/-- Configuration.MediaAttachments of InstanceV2 from the source. -/
structure InstanceV2MediaAttachments where
  SupportedMimeTypes : List String
  ImageSizeLimit : Int
  ImageMatrixLimit : Int
  VideoSizeLimit : Int
  VideoFrameRateLimit : Int
  VideoMatrixLimit : Int
deriving Repr, DecidableEq

/-- Configuration.Polls of InstanceV2 from the source. -/
structure InstanceV2Polls where
  MaxOptions : Int
  MaxCharactersPerOption : Int
  MinExpiration : Int
  MaxExpiration : Int
deriving Repr, DecidableEq

/-- Configuration.Translation of InstanceV2 from the source. -/
structure InstanceV2Translation where
  Enabled : Bool
deriving Repr, DecidableEq

/-- Configuration of InstanceV2 from the source. -/
structure InstanceV2Configuration where
  Urls : InstanceV2Urls
  Accounts : InstanceV2Accounts
  Statuses : InstanceV2Statuses
  MediaAttachments : InstanceV2MediaAttachments
  Polls : InstanceV2Polls
  Translation : InstanceV2Translation
deriving Repr, DecidableEq

/-- Registrations of InstanceV2 from the source; message is a dynamic
value. -/
structure InstanceV2Registrations where
  Enabled : Bool
  ApprovalRequired : Bool
  Message : Json
deriving Repr

/-- Contact of InstanceV2 from the source: the Email field carries the
json tag "email"; the Account field carries no tag, so encoding/json
matches it by its exported identifier (exactly or case-insensitively). -/
structure InstanceV2Contact where
  Email : String
  Account : Option Account
deriving Repr, DecidableEq

/-- InstanceV2 from the source, fields in declaration order. -/
structure InstanceV2 where
  Domain : String
  Title : String
  Version : String
  SourceURL : String
  Description : String
  Usage : InstanceV2Usage
  Thumbnail : InstanceV2Thumbnail
  Languages : Option (List String)
  Configuration : InstanceV2Configuration
  Registrations : InstanceV2Registrations
  Contact : InstanceV2Contact
  Rules : List Rule
deriving Repr

/-- Modelled from the spec: Unixtime (outside the analysed files) wraps a
point in time, decoded from Unix epoch seconds on the wire. -/
structure Unixtime where
  seconds : Int
deriving Repr, DecidableEq

/-- WeeklyActivity from the source: week is a Unixtime; statuses, logins
and registrations are int64 fields with the string tag option (the wire
value is a JSON string holding the number). -/
structure WeeklyActivity where
  Week : Unixtime
  Statuses : Int
  Logins : Int
  Registrations : Int
deriving Repr, DecidableEq

/-- The Go zero value of WeeklyActivity. -/
def WeeklyActivity.zero : WeeklyActivity := ⟨⟨0⟩, 0, 0, 0⟩

/-- The request GetInstance issues: GET /api/v1/instance, nil params,
nil pagination. -/
def instanceRequest : APIRequest :=
  { method := "GET", uri := "/api/v1/instance", params := none, pagination := none }

/-- The request GetInstanceV2 issues: GET /api/v2/instance, nil params,
nil pagination. -/
def instanceV2Request : APIRequest :=
  { method := "GET", uri := "/api/v2/instance", params := none, pagination := none }

/-- The request GetInstanceActivity issues: GET /api/v1/instance/activity,
nil params, nil pagination. -/
def instanceActivityRequest : APIRequest :=
  { method := "GET", uri := "/api/v1/instance/activity", params := none, pagination := none }

/-- The request GetInstancePeers issues: GET /api/v1/instance/peers,
nil params, nil pagination. -/
def instancePeersRequest : APIRequest :=
  { method := "GET", uri := "/api/v1/instance/peers", params := none, pagination := none }

/-- GetInstance from the source: one doAPI call with GET
/api/v1/instance and nil body; on error return (nil, err), otherwise the
decoded Instance. The second component records the requests issued. -/
def GetInstance (doAPI : DoAPI Instance) :
    Except APIError Instance × List APIRequest :=
  match doAPI instanceRequest with
  | Except.error e => (Except.error e, [instanceRequest])
  | Except.ok v => (Except.ok v, [instanceRequest])

/-- GetInstanceV2 from the source: one doAPI call with GET
/api/v2/instance and nil body; on error return (nil, err), otherwise the
decoded InstanceV2. -/
def GetInstanceV2 (doAPI : DoAPI InstanceV2) :
    Except APIError InstanceV2 × List APIRequest :=
  match doAPI instanceV2Request with
  | Except.error e => (Except.error e, [instanceV2Request])
  | Except.ok v => (Except.ok v, [instanceV2Request])

/-- GetInstanceActivity from the source: one doAPI call with GET
/api/v1/instance/activity and nil body; the destination is a slice of
pointers to WeeklyActivity (a nil element is none). -/
def GetInstanceActivity (doAPI : DoAPI (List (Option WeeklyActivity))) :
    Except APIError (List (Option WeeklyActivity)) × List APIRequest :=
  match doAPI instanceActivityRequest with
  | Except.error e => (Except.error e, [instanceActivityRequest])
  | Except.ok v => (Except.ok v, [instanceActivityRequest])

/-- GetInstancePeers from the source: one doAPI call with GET
/api/v1/instance/peers and nil body; the destination is a slice of
strings. -/
def GetInstancePeers (doAPI : DoAPI (List String)) :
    Except APIError (List String) × List APIRequest :=
  match doAPI instancePeersRequest with
  | Except.error e => (Except.error e, [instancePeersRequest])
  | Except.ok v => (Except.ok v, [instancePeersRequest])

/-! ## The JSON decode layer

Modelled from the spec: doAPI (outside the analysed files) decodes the
response body into the destination with Go encoding/json driven by the
struct tags visible in the source. The definitions below realise that
decoding for the destination types of the four operations. -/

/-- ASCII case folding of one character, by code point: an upper-case
letter folds to its lower-case counterpart. -/
def foldCharNat (c : Char) : Nat :=
  if 65 ≤ c.toNat ∧ c.toNat ≤ 90 then c.toNat + 32 else c.toNat

/-- encoding/json key-to-field matching: a JSON object key selects a
struct field when it equals the field's tag name (or, for an untagged
field, the field's identifier) exactly, or case-insensitively otherwise.
No two tag names of the analysed records collide case-insensitively, so
the two-phase match of encoding/json reduces to this predicate. -/
def keyMatch (k tag : String) : Bool :=
  k == tag || k.data.map foldCharNat == tag.data.map foldCharNat

/-- Value of a nonempty digit string, most significant first. -/
def digitsVal : List Char → Nat → Option Nat
  | [], acc => some acc
  | c :: rest, acc =>
    if c.isDigit then digitsVal rest (acc * 10 + (c.toNat - 48)) else none

/-- strconv.ParseInt with base 10: an optional sign followed by at least
one digit, consuming the whole string. -/
def parseGoInt (s : String) : Option Int :=
  match s.data with
  | [] => none
  | '+' :: [] => none
  | '-' :: [] => none
  | '+' :: c :: rest => (digitsVal (c :: rest) 0).map Int.ofNat
  | '-' :: c :: rest => (digitsVal (c :: rest) 0).map (fun n => -(n : Int))
  | l => (digitsVal l 0).map Int.ofNat

/-- The int64 range check encoding/json performs before storing a parsed
number. -/
def int64Range (n : Int) : Prop :=
  -(2 ^ 63) ≤ n ∧ n < 2 ^ 63

instance (n : Int) : Decidable (int64Range n) := by
  unfold int64Range; infer_instance

/-- encoding/json additionally requires the content of a string-tagged
numeric field to begin like a JSON number (a sign or digit) before
handing it to strconv.ParseInt. -/
def goQuotedNumOk (s : String) : Bool :=
  match s.data with
  | [] => false
  | c :: _ => c == '-' || c.isDigit

/-- Insert a key/value pair into an association list the way a Go map
assignment does: overwrite the value in place when the key is present,
append otherwise. -/
def insertKV {α : Type} : List (String × α) → String → α → List (String × α)
  | [], k, v => [(k, v)]
  | (k0, v0) :: rest, k, v =>
    if k0 = k then (k0, v) :: rest
    else (k0, v0) :: insertKV rest k v

/-- Build a Go map from the fields of a JSON object in order: duplicate
keys collapse and the last occurrence wins. -/
def dedupLast {α : Type} (l : List (String × α)) : List (String × α) :=
  l.foldl (fun acc kv => insertKV acc kv.1 kv.2) []

/-- The keys of an association list are distinct. Every decoded Go map
satisfies this. -/
def keysNodup {α : Type} (l : List (String × α)) : Prop :=
  (l.map Prod.fst).Nodup

/-- Decode a JSON value into a string struct field: a string stores its
content, null leaves the field unchanged, anything else is an error. -/
def decStringInto (cur : String) : Json → Except DecErr String
  | Json.str s => Except.ok s
  | Json.null => Except.ok cur
  | _ => Except.error ⟨"cannot unmarshal value into string field"⟩

/-- Decode a JSON value into a freshly allocated string element of a map
or slice: the element starts at the zero value. -/
def decStringElem : Json → Except DecErr String
  | Json.str s => Except.ok s
  | Json.null => Except.ok ""
  | _ => Except.error ⟨"cannot unmarshal value into string element"⟩

/-- Decode a JSON value into an int64 struct field without the string
option: a number in range stores, null leaves the field unchanged,
anything else (including a quoted number) is an error. -/
def decInt64Into (cur : Int) : Json → Except DecErr Int
  | Json.num n =>
    if int64Range n then Except.ok n
    else Except.error ⟨"number overflows int64"⟩
  | Json.null => Except.ok cur
  | _ => Except.error ⟨"cannot unmarshal value into int64 field"⟩

/-- Decode a JSON value into an int64 struct field carrying the string
tag option: the value must be a JSON string whose content looks like a
number and parses with strconv.ParseInt; null leaves the field
unchanged; an unquoted value is an invalid use of the string option. -/
def decInt64String (cur : Int) : Json → Except DecErr Int
  | Json.str s =>
    if goQuotedNumOk s then
      match parseGoInt s with
      | some n =>
        if int64Range n then Except.ok n
        else Except.error ⟨"number overflows int64"⟩
      | none => Except.error ⟨"invalid number in quoted field"⟩
    else Except.error ⟨"invalid use of string option"⟩
  | Json.null => Except.ok cur
  | _ => Except.error ⟨"invalid use of string option"⟩

/-- Modelled from the spec: Unixtime.UnmarshalJSON (outside the analysed
files) strips surrounding quotes when present, parses the remaining
bytes with strconv.ParseInt base 10, and stores the result as Unix epoch
seconds; any parse failure (including null and other literals) is an
error. -/
def decUnixtime : Json → Except DecErr Unixtime
  | Json.str s =>
    match parseGoInt s with
    | some n =>
      if int64Range n then Except.ok ⟨n⟩
      else Except.error ⟨"epoch seconds overflow int64"⟩
    | none => Except.error ⟨"invalid epoch seconds"⟩
  | Json.num n =>
    if int64Range n then Except.ok ⟨n⟩
    else Except.error ⟨"epoch seconds overflow int64"⟩
  | _ => Except.error ⟨"invalid epoch seconds"⟩

/-- Decode a JSON value into a map with string keys and string values
(the urls field): null gives the nil map, an object decodes every value
as a string element and collapses duplicate keys, anything else is an
error. -/
def decStringMap : Json → Except DecErr (Option (List (String × String)))
  | Json.null => Except.ok none
  | Json.obj fs =>
    (fs.mapM (fun kv => (decStringElem kv.2).map (fun s => (kv.1, s)))).map
      (fun l => some (dedupLast l))
  | _ => Except.error ⟨"cannot unmarshal value into string map"⟩

/-- Decode a JSON value into an InstanceConfigMap (a map with dynamic
values, possibly behind a pointer): null gives the nil map or nil
pointer, an object decodes each value as a dynamic value (which cannot
fail) and collapses duplicate keys, anything else is an error. -/
def decConfigMap : Json → Except DecErr (Option InstanceConfigMap)
  | Json.null => Except.ok none
  | Json.obj fs => Except.ok (some (dedupLast fs))
  | _ => Except.error ⟨"cannot unmarshal value into config map"⟩

/-- The fold that drives every struct decode: process the object fields
in order, updating the accumulated record, stopping at the first
error. -/
def decFold {α : Type} (step : α → String × Json → Except DecErr α) :
    α → List (String × Json) → Except DecErr α
  | a, [] => Except.ok a
  | a, kv :: rest =>
    match step a kv with
    | Except.error e => Except.error e
    | Except.ok a2 => decFold step a2 rest

/-- One object field decoded into an InstanceStats record under the tags
user_count, status_count, domain_count; unknown keys are skipped. -/
def statsStep (s : InstanceStats) (kv : String × Json) :
    Except DecErr InstanceStats :=
  if keyMatch kv.1 "user_count" then
    (decInt64Into s.UserCount kv.2).map (fun n => { s with UserCount := n })
  else if keyMatch kv.1 "status_count" then
    (decInt64Into s.StatusCount kv.2).map (fun n => { s with StatusCount := n })
  else if keyMatch kv.1 "domain_count" then
    (decInt64Into s.DomainCount kv.2).map (fun n => { s with DomainCount := n })
  else Except.ok s

/-- Decode a JSON value into the stats field (a pointer to
InstanceStats): null gives the nil pointer, an object decodes into a
fresh zero record. -/
def decStats : Json → Except DecErr (Option InstanceStats)
  | Json.null => Except.ok none
  | Json.obj fs => (decFold statsStep ⟨0, 0, 0⟩ fs).map some
  | _ => Except.error ⟨"cannot unmarshal value into InstanceStats"⟩

/-- One object field decoded into the modelled Account record under the
tag username. -/
def accountStep (a : Account) (kv : String × Json) : Except DecErr Account :=
  if keyMatch kv.1 "username" then
    (decStringInto a.Username kv.2).map (fun s => { a with Username := s })
  else Except.ok a

/-- Decode a JSON value into a pointer to Account: null gives the nil
pointer, an object decodes into a fresh zero record. -/
def decAccountPtr : Json → Except DecErr (Option Account)
  | Json.null => Except.ok none
  | Json.obj fs => (decFold accountStep ⟨""⟩ fs).map some
  | _ => Except.error ⟨"cannot unmarshal value into Account"⟩

/-- One object field decoded into an InstanceConfig record under the
tags accounts, statuses, media_attachments, polls. -/
def configStep (c : InstanceConfig) (kv : String × Json) :
    Except DecErr InstanceConfig :=
  if keyMatch kv.1 "accounts" then
    (decConfigMap kv.2).map (fun m => { c with Accounts := m })
  else if keyMatch kv.1 "statuses" then
    (decConfigMap kv.2).map (fun m => { c with Statuses := m })
  else if keyMatch kv.1 "media_attachments" then
    (decConfigMap kv.2).map (fun m => { c with MediaAttachments := m })
  else if keyMatch kv.1 "polls" then
    (decConfigMap kv.2).map (fun m => { c with Polls := m })
  else Except.ok c

/-- Decode a JSON value into the configuration field (a pointer to
InstanceConfig): null gives the nil pointer, an object decodes into a
fresh zero record. -/
def decConfigPtr : Json → Except DecErr (Option InstanceConfig)
  | Json.null => Except.ok none
  | Json.obj fs =>
    (decFold configStep ⟨none, none, none, none⟩ fs).map some
  | _ => Except.error ⟨"cannot unmarshal value into InstanceConfig"⟩

/-- Decode a JSON value into the languages field (a string slice): null
gives the nil slice, an array decodes every element as a string element
in order. -/
def decLanguages : Json → Except DecErr (Option (List String))
  | Json.null => Except.ok none
  | Json.arr es => (es.mapM decStringElem).map some
  | _ => Except.error ⟨"cannot unmarshal value into string slice"⟩

/-- One object field decoded into an Instance record under the json tags
of the source, in declaration order; unknown keys are skipped. -/
def instStep (i : Instance) (kv : String × Json) : Except DecErr Instance :=
  if keyMatch kv.1 "uri" then
    (decStringInto i.URI kv.2).map (fun s => { i with URI := s })
  else if keyMatch kv.1 "title" then
    (decStringInto i.Title kv.2).map (fun s => { i with Title := s })
  else if keyMatch kv.1 "description" then
    (decStringInto i.Description kv.2).map (fun s => { i with Description := s })
  else if keyMatch kv.1 "email" then
    (decStringInto i.EMail kv.2).map (fun s => { i with EMail := s })
  else if keyMatch kv.1 "version" then
    (decStringInto i.Version kv.2).map (fun s => { i with Version := s })
  else if keyMatch kv.1 "thumbnail" then
    (decStringInto i.Thumbnail kv.2).map (fun s => { i with Thumbnail := s })
  else if keyMatch kv.1 "urls" then
    (decStringMap kv.2).map (fun u => { i with URLs := u })
  else if keyMatch kv.1 "stats" then
    (decStats kv.2).map (fun s => { i with Stats := s })
  else if keyMatch kv.1 "languages" then
    (decLanguages kv.2).map (fun ls => { i with Languages := ls })
  else if keyMatch kv.1 "contact_account" then
    (decAccountPtr kv.2).map (fun a => { i with ContactAccount := a })
  else if keyMatch kv.1 "configuration" then
    (decConfigPtr kv.2).map (fun c => { i with Configuration := c })
  else Except.ok i

/-- Decode a JSON body into the Instance destination of GetInstance: an
object folds its fields into the zero record, null leaves the
destination at its zero value, anything else is an error. -/
def decodeInstanceJson : Json → Except DecErr Instance
  | Json.obj fs => decFold instStep Instance.zero fs
  | Json.null => Except.ok Instance.zero
  | _ => Except.error ⟨"cannot unmarshal value into Instance"⟩

/-- One object field decoded into a WeeklyActivity record under the tags
week (Unixtime), statuses, logins, registrations (int64 with the string
option). -/
def waStep (w : WeeklyActivity) (kv : String × Json) :
    Except DecErr WeeklyActivity :=
  if keyMatch kv.1 "week" then
    (decUnixtime kv.2).map (fun t => { w with Week := t })
  else if keyMatch kv.1 "statuses" then
    (decInt64String w.Statuses kv.2).map (fun n => { w with Statuses := n })
  else if keyMatch kv.1 "logins" then
    (decInt64String w.Logins kv.2).map (fun n => { w with Logins := n })
  else if keyMatch kv.1 "registrations" then
    (decInt64String w.Registrations kv.2).map (fun n => { w with Registrations := n })
  else Except.ok w

/-- Decode a JSON value into a WeeklyActivity record. -/
def decodeWeeklyActivityJson : Json → Except DecErr WeeklyActivity
  | Json.obj fs => decFold waStep WeeklyActivity.zero fs
  | Json.null => Except.ok WeeklyActivity.zero
  | _ => Except.error ⟨"cannot unmarshal value into WeeklyActivity"⟩

/-- Decode one element of the activity slice (a pointer to
WeeklyActivity): null gives the nil pointer. -/
def decWeeklyElem : Json → Except DecErr (Option WeeklyActivity)
  | Json.null => Except.ok none
  | j => (decodeWeeklyActivityJson j).map some

/-- Decode the body of GetInstanceActivity into its slice destination:
null gives the nil slice, an array decodes its elements in order. -/
def decodeActivityBody : Json → Except DecErr (List (Option WeeklyActivity))
  | Json.null => Except.ok []
  | Json.arr es => es.mapM decWeeklyElem
  | _ => Except.error ⟨"cannot unmarshal value into activity slice"⟩

/-- Decode the body of GetInstancePeers into its slice destination: null
gives the nil slice, an array decodes its elements in order. -/
def decodePeersBody : Json → Except DecErr (List String)
  | Json.null => Except.ok []
  | Json.arr es => es.mapM decStringElem
  | _ => Except.error ⟨"cannot unmarshal value into peers slice"⟩

/-- One object field decoded into the InstanceV2 Contact record: email
carries an explicit tag; Account carries none, so it is matched by its
exported identifier. -/
def contactStep (c : InstanceV2Contact) (kv : String × Json) :
    Except DecErr InstanceV2Contact :=
  if keyMatch kv.1 "email" then
    (decStringInto c.Email kv.2).map (fun s => { c with Email := s })
  else if keyMatch kv.1 "Account" then
    (decAccountPtr kv.2).map (fun a => { c with Account := a })
  else Except.ok c

/-- Decode a JSON value into the InstanceV2 Contact record. -/
def decodeContactV2Json : Json → Except DecErr InstanceV2Contact
  | Json.obj fs => decFold contactStep ⟨"", none⟩ fs
  | Json.null => Except.ok ⟨"", none⟩
  | _ => Except.error ⟨"cannot unmarshal value into Contact"⟩

/-- Modelled from the spec: a doAPI oracle that succeeds at the HTTP
layer with the given response body and decodes it into the destination
with the given decoder, surfacing decode failures as API errors. -/
def jsonDoAPI {α : Type} (body : Json) (dec : Json → Except DecErr α) :
    DoAPI α :=
  fun _ =>
    match dec body with
    | Except.ok v => Except.ok v
    | Except.error e => Except.error (APIError.decode e)

/-! ## The JSON encode layer

Go json.Marshal over the Instance record, for the round-trip property:
fields appear in struct declaration order; omitempty drops the empty
string, the nil or empty map, and the nil pointer; maps and pointers
without omitempty encode nil as null. -/

/-- Marshal an InstanceStats record. -/
def encodeStats (s : InstanceStats) : Json :=
  Json.obj [("user_count", Json.num s.UserCount),
    ("status_count", Json.num s.StatusCount),
    ("domain_count", Json.num s.DomainCount)]

/-- Marshal the modelled Account record. -/
def encodeAccount (a : Account) : Json :=
  Json.obj [("username", Json.str a.Username)]

/-- Marshal an optional InstanceConfigMap (no omitempty): nil becomes
null, a map becomes an object of its entries. -/
def encodeConfigMapOpt : Option InstanceConfigMap → Json
  | none => Json.null
  | some m => Json.obj m

/-- Marshal an InstanceConfig record: the four keys are always
present. -/
def encodeConfig (c : InstanceConfig) : Json :=
  Json.obj [("accounts", encodeConfigMapOpt c.Accounts),
    ("statuses", encodeConfigMapOpt c.Statuses),
    ("media_attachments", encodeConfigMapOpt c.MediaAttachments),
    ("polls", encodeConfigMapOpt c.Polls)]

/-- Marshal the languages slice (no omitempty): nil becomes null. -/
def encodeLanguages : Option (List String) → Json
  | none => Json.null
  | some xs => Json.arr (xs.map Json.str)

/-- Marshal the urls map entries. -/
def encodeURLs (m : List (String × String)) : Json :=
  Json.obj (m.map (fun kv => (kv.1, Json.str kv.2)))

/-- The version field of a marshalled Instance: omitempty drops the
empty string. -/
def versionSeg (v : String) : List (String × Json) :=
  if v = "" then [] else [("version", Json.str v)]

/-- The thumbnail field of a marshalled Instance: omitempty drops the
empty string. -/
def thumbnailSeg (t : String) : List (String × Json) :=
  if t = "" then [] else [("thumbnail", Json.str t)]

/-- The urls field of a marshalled Instance: omitempty drops both the
nil map and the present-but-empty map. -/
def urlsSeg : Option (List (String × String)) → List (String × Json)
  | none => []
  | some [] => []
  | some m => [("urls", encodeURLs m)]

/-- The stats field of a marshalled Instance: omitempty drops the nil
pointer. -/
def statsSeg : Option InstanceStats → List (String × Json)
  | none => []
  | some s => [("stats", encodeStats s)]

/-- The contact_account value of a marshalled Instance (no omitempty):
a nil pointer marshals as null. -/
def contactVal : Option Account → Json
  | none => Json.null
  | some a => encodeAccount a

/-- The configuration value of a marshalled Instance (no omitempty): a
nil pointer marshals as null. -/
def configVal : Option InstanceConfig → Json
  | none => Json.null
  | some c => encodeConfig c

/-- Marshal an Instance record: fields in declaration order; version,
thumbnail, urls and stats carry omitempty, so the empty string, the nil
or empty map and the nil pointer are dropped. -/
def encodeInstance (i : Instance) : Json :=
  Json.obj
    ([("uri", Json.str i.URI), ("title", Json.str i.Title),
      ("description", Json.str i.Description), ("email", Json.str i.EMail)]
      ++ versionSeg i.Version
      ++ thumbnailSeg i.Thumbnail
      ++ urlsSeg i.URLs
      ++ statsSeg i.Stats
      ++ [("languages", encodeLanguages i.Languages)]
      ++ [("contact_account", contactVal i.ContactAccount)]
      ++ [("configuration", configVal i.Configuration)])

/-! ## Invariants of decoded records

Every record produced by the decode layer satisfies these predicates:
decoded maps have distinct keys and decoded int64 fields are in range.
They are what the encode/decode round trip needs. -/

/-- A decoded urls map: absent, or with distinct keys. -/
def GoodURLs : Option (List (String × String)) → Prop
  | none => True
  | some m => keysNodup m

/-- A decoded config map: absent, or with distinct keys. -/
def GoodCfgMap : Option InstanceConfigMap → Prop
  | none => True
  | some m => keysNodup m

/-- A decoded InstanceStats record: all three counters in int64
range. -/
def GoodStatsRec (s : InstanceStats) : Prop :=
  int64Range s.UserCount ∧ int64Range s.StatusCount ∧ int64Range s.DomainCount

/-- A decoded optional InstanceStats record. -/
def GoodStatsOpt : Option InstanceStats → Prop
  | none => True
  | some s => GoodStatsRec s

/-- A decoded InstanceConfig record: all four maps good. -/
def GoodConfigRec (c : InstanceConfig) : Prop :=
  GoodCfgMap c.Accounts ∧ GoodCfgMap c.Statuses ∧
    GoodCfgMap c.MediaAttachments ∧ GoodCfgMap c.Polls

/-- A decoded optional InstanceConfig record. -/
def GoodConfigOpt : Option InstanceConfig → Prop
  | none => True
  | some c => GoodConfigRec c

/-- The invariant decodeInstanceJson guarantees about its result. -/
def GoodInstance (i : Instance) : Prop :=
  GoodURLs i.URLs ∧ GoodStatsOpt i.Stats ∧ GoodConfigOpt i.Configuration

/-! ## Civil time

For the epoch-seconds claim: the number of days from 1970-01-01 to a
Gregorian civil date, by the standard era decomposition, and the Unix
epoch seconds of a UTC timestamp. -/

/-- Days from 1970-01-01 to the civil date y-m-d (proleptic
Gregorian). -/
def daysFromCivil (y m d : Int) : Int :=
  let y1 : Int := if m ≤ 2 then y - 1 else y
  let era : Int := (if 0 ≤ y1 then y1 else y1 - 399) / 400
  let yoe : Int := y1 - era * 400
  let mp : Int := if 2 < m then m - 3 else m + 9
  let doy : Int := (153 * mp + 2) / 5 + d - 1
  let doe : Int := yoe * 365 + yoe / 4 - yoe / 100 + doy
  era * 146097 + doe - 719468

/-- Unix epoch seconds of the UTC timestamp y-m-d hh:mm:ss. -/
def epochOfUTC (y m d hh mm ss : Int) : Int :=
  daysFromCivil y m d * 86400 + hh * 3600 + mm * 60 + ss

/-- An activity bucket as sent on the wire, with the three counters as
JSON strings; the sample week value is the one from the repository
tests. -/
def activityObj (statuses logins registrations : String) : Json :=
  Json.obj [("week", Json.str "1516579200"), ("statuses", Json.str statuses),
    ("logins", Json.str logins), ("registrations", Json.str registrations)]

/-- A v1 instance body whose urls object is present but empty. -/
def emptyUrlsBody : Json :=
  Json.obj [("uri", Json.str "http://mstdn.example.com"),
    ("urls", Json.obj [])]

/-- The Instance that emptyUrlsBody decodes to: the urls map is present
and empty. -/
def urlsEmptyInstance : Instance :=
  { Instance.zero with URI := "http://mstdn.example.com", URLs := some [] }

/-- The same Instance except that the urls map is absent (nil). -/
def urlsAbsentInstance : Instance :=
  { Instance.zero with URI := "http://mstdn.example.com" }

/-! ## Helper lemmas -/

theorem exceptMap_ok {ε α β : Type} {f : α → β} {e : Except ε α} {b : β}
    (h : e.map f = Except.ok b) : ∃ a, e = Except.ok a ∧ f a = b := by
  cases e with
  | error err => simp [Except.map] at h
  | ok a => exact ⟨a, rfl, by simpa [Except.map] using h⟩

theorem mapM_decStringElem_strs (ss : List String) :
    (ss.map Json.str).mapM decStringElem = Except.ok ss := by
  induction ss with
  | nil => rfl
  | cons s rest ih =>
    simp only [List.map_cons, List.mapM_cons, ih, decStringElem]
    rfl

theorem keys_insertKV_of_mem {α : Type} (k : String) (v : α) :
    ∀ l : List (String × α), k ∈ l.map Prod.fst →
      (insertKV l k v).map Prod.fst = l.map Prod.fst := by
  intro l
  induction l with
  | nil => intro h; simp at h
  | cons kv0 rest ih =>
    obtain ⟨k0, v0⟩ := kv0
    intro h
    by_cases hk : k0 = k
    · simp [insertKV, hk]
    · have hmem : k ∈ rest.map Prod.fst := by
        rw [List.map_cons] at h
        rcases List.mem_cons.mp h with h1 | h1
        · exact absurd h1.symm hk
        · exact h1
      simp [insertKV, hk, ih hmem]

theorem insertKV_of_not_mem {α : Type} (k : String) (v : α) :
    ∀ l : List (String × α), k ∉ l.map Prod.fst →
      insertKV l k v = l ++ [(k, v)] := by
  intro l
  induction l with
  | nil => intro h2; rfl
  | cons kv0 rest ih =>
    obtain ⟨k0, v0⟩ := kv0
    intro h
    have h1 : ¬(k = k0 ∨ k ∈ rest.map Prod.fst) := by simpa using h
    have hk : ¬k0 = k := fun he => h1 (Or.inl he.symm)
    simp [insertKV, hk, ih (fun hm => h1 (Or.inr hm))]

theorem keysNodup_insertKV {α : Type} (k : String) (v : α)
    (l : List (String × α)) (h : keysNodup l) : keysNodup (insertKV l k v) := by
  by_cases hm : k ∈ l.map Prod.fst
  · unfold keysNodup
    rw [keys_insertKV_of_mem k v l hm]
    exact h
  · unfold keysNodup at h ⊢
    rw [insertKV_of_not_mem k v l hm]
    rw [List.map_append]
    exact List.Nodup.append h (by simp) (by simpa [List.disjoint_left] using hm)

theorem keysNodup_foldl_insertKV {α : Type} :
    ∀ (l acc : List (String × α)), keysNodup acc →
      keysNodup (l.foldl (fun a kv => insertKV a kv.1 kv.2) acc) := by
  intro l
  induction l with
  | nil => intro acc h; exact h
  | cons kv rest ih =>
    intro acc h
    exact ih _ (keysNodup_insertKV _ _ _ h)

theorem keysNodup_dedupLast {α : Type} (l : List (String × α)) :
    keysNodup (dedupLast l) :=
  keysNodup_foldl_insertKV l [] (by simp [keysNodup])

theorem foldl_insertKV_eq_append {α : Type} :
    ∀ (l acc : List (String × α)), keysNodup (acc ++ l) →
      l.foldl (fun a kv => insertKV a kv.1 kv.2) acc = acc ++ l := by
  intro l
  induction l with
  | nil => intro acc h2; simp
  | cons kv rest ih =>
    obtain ⟨k, v⟩ := kv
    intro acc h
    have hnd := (List.nodup_append.mp (by simpa [keysNodup, List.map_append] using h))
    have hk : k ∉ acc.map Prod.fst := by
      intro hmem
      exact (hnd.2.2 hmem) (List.mem_cons_self k _)
    have h2 : keysNodup ((acc ++ [(k, v)]) ++ rest) := by
      simpa [keysNodup, List.map_append, List.append_assoc] using h
    simp only [List.foldl_cons]
    rw [insertKV_of_not_mem k v acc hk, ih (acc ++ [(k, v)]) h2]
    simp

theorem dedupLast_eq_self {α : Type} (l : List (String × α))
    (h : keysNodup l) : dedupLast l = l := by
  have := foldl_insertKV_eq_append l [] (by simpa [keysNodup] using h)
  simpa [dedupLast] using this

theorem decStringMap_good {v : Json} {u : Option (List (String × String))}
    (h : decStringMap v = Except.ok u) : GoodURLs u := by
  cases v with
  | null =>
    simp [decStringMap] at h
    rw [← h]
    trivial
  | obj fs =>
    simp only [decStringMap] at h
    obtain ⟨l, _, hfa⟩ := exceptMap_ok h
    rw [← hfa]
    exact keysNodup_dedupLast l
  | bool b => simp [decStringMap] at h
  | num n => simp [decStringMap] at h
  | str s => simp [decStringMap] at h
  | arr es => simp [decStringMap] at h

theorem decConfigMap_good {v : Json} {m : Option InstanceConfigMap}
    (h : decConfigMap v = Except.ok m) : GoodCfgMap m := by
  cases v with
  | null =>
    simp [decConfigMap] at h
    rw [← h]
    trivial
  | obj fs =>
    simp only [decConfigMap, Except.ok.injEq] at h
    rw [← h]
    exact keysNodup_dedupLast fs
  | bool b => simp [decConfigMap] at h
  | num n => simp [decConfigMap] at h
  | str s => simp [decConfigMap] at h
  | arr es => simp [decConfigMap] at h

theorem decInt64Into_range {cur n : Int} {v : Json} (hc : int64Range cur)
    (h : decInt64Into cur v = Except.ok n) : int64Range n := by
  cases v with
  | num k =>
    simp only [decInt64Into] at h
    split at h
    · cases h
      assumption
    · cases h
  | null =>
    simp only [decInt64Into] at h
    cases h
    exact hc
  | bool b => simp [decInt64Into] at h
  | str s => simp [decInt64Into] at h
  | arr es => simp [decInt64Into] at h
  | obj fs => simp [decInt64Into] at h

theorem decFold_inv {α : Type} {P : α → Prop}
    {step : α → String × Json → Except DecErr α}
    (hstep : ∀ a kv a2, P a → step a kv = Except.ok a2 → P a2) :
    ∀ (l : List (String × Json)) (a a2 : α), P a →
      decFold step a l = Except.ok a2 → P a2 := by
  intro l
  induction l with
  | nil =>
    intro a a2 h hf
    simp only [decFold, Except.ok.injEq] at hf
    rw [← hf]
    exact h
  | cons kv rest ih =>
    intro a a2 h hf
    simp only [decFold] at hf
    cases hs : step a kv with
    | error e =>
      rw [hs] at hf
      cases hf
    | ok a3 =>
      rw [hs] at hf
      exact ih a3 a2 (hstep a kv a3 h hs) hf

theorem statsStep_good :
    ∀ (s : InstanceStats) (kv : String × Json) (s2 : InstanceStats),
      GoodStatsRec s → statsStep s kv = Except.ok s2 → GoodStatsRec s2 := by
  intro s kv s2 h hs
  unfold statsStep at hs
  split at hs
  · obtain ⟨n, hn, hfa⟩ := exceptMap_ok hs
    rw [← hfa]
    exact ⟨decInt64Into_range h.1 hn, h.2.1, h.2.2⟩
  · split at hs
    · obtain ⟨n, hn, hfa⟩ := exceptMap_ok hs
      rw [← hfa]
      exact ⟨h.1, decInt64Into_range h.2.1 hn, h.2.2⟩
    · split at hs
      · obtain ⟨n, hn, hfa⟩ := exceptMap_ok hs
        rw [← hfa]
        exact ⟨h.1, h.2.1, decInt64Into_range h.2.2 hn⟩
      · cases hs
        exact h

theorem decStats_good {v : Json} {so : Option InstanceStats}
    (h : decStats v = Except.ok so) : GoodStatsOpt so := by
  cases v with
  | null =>
    simp [decStats] at h
    rw [← h]
    trivial
  | obj fs =>
    simp only [decStats] at h
    obtain ⟨s, hs, hfa⟩ := exceptMap_ok h
    rw [← hfa]
    exact decFold_inv statsStep_good fs ⟨0, 0, 0⟩ s
      ⟨by decide, by decide, by decide⟩ hs
  | bool b => simp [decStats] at h
  | num n => simp [decStats] at h
  | str s => simp [decStats] at h
  | arr es => simp [decStats] at h

theorem configStep_good :
    ∀ (c : InstanceConfig) (kv : String × Json) (c2 : InstanceConfig),
      GoodConfigRec c → configStep c kv = Except.ok c2 → GoodConfigRec c2 := by
  intro c kv c2 h hs
  unfold configStep at hs
  split at hs
  · obtain ⟨m, hm, hfa⟩ := exceptMap_ok hs
    rw [← hfa]
    exact ⟨decConfigMap_good hm, h.2.1, h.2.2.1, h.2.2.2⟩
  · split at hs
    · obtain ⟨m, hm, hfa⟩ := exceptMap_ok hs
      rw [← hfa]
      exact ⟨h.1, decConfigMap_good hm, h.2.2.1, h.2.2.2⟩
    · split at hs
      · obtain ⟨m, hm, hfa⟩ := exceptMap_ok hs
        rw [← hfa]
        exact ⟨h.1, h.2.1, decConfigMap_good hm, h.2.2.2⟩
      · split at hs
        · obtain ⟨m, hm, hfa⟩ := exceptMap_ok hs
          rw [← hfa]
          exact ⟨h.1, h.2.1, h.2.2.1, decConfigMap_good hm⟩
        · cases hs
          exact h

theorem decConfigPtr_good {v : Json} {co : Option InstanceConfig}
    (h : decConfigPtr v = Except.ok co) : GoodConfigOpt co := by
  cases v with
  | null =>
    simp [decConfigPtr] at h
    rw [← h]
    trivial
  | obj fs =>
    simp only [decConfigPtr] at h
    obtain ⟨c, hc, hfa⟩ := exceptMap_ok h
    rw [← hfa]
    exact decFold_inv configStep_good fs ⟨none, none, none, none⟩ c
      ⟨trivial, trivial, trivial, trivial⟩ hc
  | bool b => simp [decConfigPtr] at h
  | num n => simp [decConfigPtr] at h
  | str s => simp [decConfigPtr] at h
  | arr es => simp [decConfigPtr] at h

theorem instStep_good :
    ∀ (i : Instance) (kv : String × Json) (i2 : Instance),
      GoodInstance i → instStep i kv = Except.ok i2 → GoodInstance i2 := by
  intro i kv i2 h hs
  unfold instStep at hs
  by_cases c1 : keyMatch kv.1 "uri" = true
  · rw [if_pos c1] at hs
    obtain ⟨s, _, hfa⟩ := exceptMap_ok hs
    rw [← hfa]
    exact ⟨h.1, h.2.1, h.2.2⟩
  rw [if_neg c1] at hs
  by_cases c2 : keyMatch kv.1 "title" = true
  · rw [if_pos c2] at hs
    obtain ⟨s, _, hfa⟩ := exceptMap_ok hs
    rw [← hfa]
    exact ⟨h.1, h.2.1, h.2.2⟩
  rw [if_neg c2] at hs
  by_cases c3 : keyMatch kv.1 "description" = true
  · rw [if_pos c3] at hs
    obtain ⟨s, _, hfa⟩ := exceptMap_ok hs
    rw [← hfa]
    exact ⟨h.1, h.2.1, h.2.2⟩
  rw [if_neg c3] at hs
  by_cases c4 : keyMatch kv.1 "email" = true
  · rw [if_pos c4] at hs
    obtain ⟨s, _, hfa⟩ := exceptMap_ok hs
    rw [← hfa]
    exact ⟨h.1, h.2.1, h.2.2⟩
  rw [if_neg c4] at hs
  by_cases c5 : keyMatch kv.1 "version" = true
  · rw [if_pos c5] at hs
    obtain ⟨s, _, hfa⟩ := exceptMap_ok hs
    rw [← hfa]
    exact ⟨h.1, h.2.1, h.2.2⟩
  rw [if_neg c5] at hs
  by_cases c6 : keyMatch kv.1 "thumbnail" = true
  · rw [if_pos c6] at hs
    obtain ⟨s, _, hfa⟩ := exceptMap_ok hs
    rw [← hfa]
    exact ⟨h.1, h.2.1, h.2.2⟩
  rw [if_neg c6] at hs
  by_cases c7 : keyMatch kv.1 "urls" = true
  · rw [if_pos c7] at hs
    obtain ⟨u, hu, hfa⟩ := exceptMap_ok hs
    rw [← hfa]
    exact ⟨decStringMap_good hu, h.2.1, h.2.2⟩
  rw [if_neg c7] at hs
  by_cases c8 : keyMatch kv.1 "stats" = true
  · rw [if_pos c8] at hs
    obtain ⟨so, hso, hfa⟩ := exceptMap_ok hs
    rw [← hfa]
    exact ⟨h.1, decStats_good hso, h.2.2⟩
  rw [if_neg c8] at hs
  by_cases c9 : keyMatch kv.1 "languages" = true
  · rw [if_pos c9] at hs
    obtain ⟨ls, _, hfa⟩ := exceptMap_ok hs
    rw [← hfa]
    exact ⟨h.1, h.2.1, h.2.2⟩
  rw [if_neg c9] at hs
  by_cases c10 : keyMatch kv.1 "contact_account" = true
  · rw [if_pos c10] at hs
    obtain ⟨a, _, hfa⟩ := exceptMap_ok hs
    rw [← hfa]
    exact ⟨h.1, h.2.1, h.2.2⟩
  rw [if_neg c10] at hs
  by_cases c11 : keyMatch kv.1 "configuration" = true
  · rw [if_pos c11] at hs
    obtain ⟨co, hco, hfa⟩ := exceptMap_ok hs
    rw [← hfa]
    exact ⟨h.1, h.2.1, decConfigPtr_good hco⟩
  rw [if_neg c11] at hs
  cases hs
  exact h

theorem decodeInstanceJson_good {j : Json} {i : Instance}
    (h : decodeInstanceJson j = Except.ok i) : GoodInstance i := by
  have hz : GoodInstance Instance.zero := ⟨trivial, trivial, trivial⟩
  cases j with
  | obj fs =>
    simp only [decodeInstanceJson] at h
    exact decFold_inv instStep_good fs Instance.zero i hz h
  | null =>
    simp [decodeInstanceJson] at h
    rw [← h]
    exact hz
  | bool b => simp [decodeInstanceJson] at h
  | num n => simp [decodeInstanceJson] at h
  | str s => simp [decodeInstanceJson] at h
  | arr es => simp [decodeInstanceJson] at h

theorem instStep_uri (i : Instance) (v : Json) :
    instStep i ("uri", v) =
      (decStringInto i.URI v).map (fun s => { i with URI := s }) := rfl

theorem instStep_title (i : Instance) (v : Json) :
    instStep i ("title", v) =
      (decStringInto i.Title v).map (fun s => { i with Title := s }) := rfl

theorem instStep_description (i : Instance) (v : Json) :
    instStep i ("description", v) =
      (decStringInto i.Description v).map (fun s => { i with Description := s }) := rfl

theorem instStep_email (i : Instance) (v : Json) :
    instStep i ("email", v) =
      (decStringInto i.EMail v).map (fun s => { i with EMail := s }) := rfl

theorem instStep_version (i : Instance) (v : Json) :
    instStep i ("version", v) =
      (decStringInto i.Version v).map (fun s => { i with Version := s }) := rfl

theorem instStep_thumbnail (i : Instance) (v : Json) :
    instStep i ("thumbnail", v) =
      (decStringInto i.Thumbnail v).map (fun s => { i with Thumbnail := s }) := rfl

theorem instStep_urls (i : Instance) (v : Json) :
    instStep i ("urls", v) =
      (decStringMap v).map (fun u => { i with URLs := u }) := rfl

theorem instStep_stats (i : Instance) (v : Json) :
    instStep i ("stats", v) =
      (decStats v).map (fun s => { i with Stats := s }) := rfl

theorem instStep_languages (i : Instance) (v : Json) :
    instStep i ("languages", v) =
      (decLanguages v).map (fun ls => { i with Languages := ls }) := rfl

theorem instStep_contact (i : Instance) (v : Json) :
    instStep i ("contact_account", v) =
      (decAccountPtr v).map (fun a => { i with ContactAccount := a }) := rfl

theorem instStep_configuration (i : Instance) (v : Json) :
    instStep i ("configuration", v) =
      (decConfigPtr v).map (fun c => { i with Configuration := c }) := rfl

theorem mapM_strPairs (m : List (String × String)) :
    (m.map (fun kv => (kv.1, Json.str kv.2))).mapM
      (fun kv => (decStringElem kv.2).map (fun s => (kv.1, s))) = Except.ok m := by
  induction m with
  | nil => rfl
  | cons kv rest ih =>
    obtain ⟨k, v⟩ := kv
    simp only [List.map_cons, List.mapM_cons, ih]
    rfl

theorem decStringMap_encodeURLs (m : List (String × String)) (h : keysNodup m) :
    decStringMap (encodeURLs m) = Except.ok (some m) := by
  have h1 : decStringMap (encodeURLs m) =
      ((m.map (fun kv => (kv.1, Json.str kv.2))).mapM
        (fun kv => (decStringElem kv.2).map (fun s => (kv.1, s)))).map
        (fun l => some (dedupLast l)) := rfl
  rw [h1, mapM_strPairs]
  show Except.ok (some (dedupLast m)) = Except.ok (some m)
  rw [dedupLast_eq_self m h]

theorem decStats_encodeStats (s : InstanceStats) (h : GoodStatsRec s) :
    decStats (encodeStats s) = Except.ok (some s) := by
  obtain ⟨h1, h2, h3⟩ := h
  have k1 : keyMatch "user_count" "user_count" = true := by decide
  have k2 : keyMatch "status_count" "user_count" = false := by decide
  have k3 : keyMatch "status_count" "status_count" = true := by decide
  have k4 : keyMatch "domain_count" "user_count" = false := by decide
  have k5 : keyMatch "domain_count" "status_count" = false := by decide
  have k6 : keyMatch "domain_count" "domain_count" = true := by decide
  simp [decStats, encodeStats, decFold, statsStep, k1, k2, k3, k4, k5, k6,
    decInt64Into, h1, h2, h3, Except.map]

theorem decAccountPtr_encodeAccount (a : Account) :
    decAccountPtr (encodeAccount a) = Except.ok (some a) := rfl

theorem decConfigMap_encode (m : Option InstanceConfigMap) (h : GoodCfgMap m) :
    decConfigMap (encodeConfigMapOpt m) = Except.ok m := by
  cases m with
  | none => rfl
  | some l =>
    show Except.ok (some (dedupLast l)) = Except.ok (some l)
    rw [dedupLast_eq_self l h]

theorem decConfigPtr_encodeConfig (c : InstanceConfig) (h : GoodConfigRec c) :
    decConfigPtr (encodeConfig c) = Except.ok (some c) := by
  obtain ⟨h1, h2, h3, h4⟩ := h
  have k1 : keyMatch "accounts" "accounts" = true := by decide
  have k2 : keyMatch "statuses" "accounts" = false := by decide
  have k3 : keyMatch "statuses" "statuses" = true := by decide
  have k4 : keyMatch "media_attachments" "accounts" = false := by decide
  have k5 : keyMatch "media_attachments" "statuses" = false := by decide
  have k6 : keyMatch "media_attachments" "media_attachments" = true := by decide
  have k7 : keyMatch "polls" "accounts" = false := by decide
  have k8 : keyMatch "polls" "statuses" = false := by decide
  have k9 : keyMatch "polls" "media_attachments" = false := by decide
  have k10 : keyMatch "polls" "polls" = true := by decide
  simp [decConfigPtr, encodeConfig, decFold, configStep, k1, k2, k3, k4, k5, k6,
    k7, k8, k9, k10, decConfigMap_encode _ h1, decConfigMap_encode _ h2,
    decConfigMap_encode _ h3, decConfigMap_encode _ h4, Except.map]

theorem decLanguages_encode (ls : Option (List String)) :
    decLanguages (encodeLanguages ls) = Except.ok ls := by
  cases ls with
  | none => rfl
  | some xs =>
    have h1 : decLanguages (encodeLanguages (some xs)) =
        ((xs.map Json.str).mapM decStringElem).map some := rfl
    rw [h1, mapM_decStringElem_strs]
    rfl

theorem decFold_versionSeg (a : Instance) (v : String)
    (rest : List (String × Json)) (ha : a.Version = "") :
    decFold instStep a (versionSeg v ++ rest) =
      decFold instStep { a with Version := v } rest := by
  by_cases hv : v = ""
  · subst hv
    show decFold instStep a rest = decFold instStep { a with Version := "" } rest
    rw [← ha]
  · unfold versionSeg
    rw [if_neg hv]
    simp only [List.cons_append, List.nil_append, decFold, instStep_version,
      decStringInto, Except.map]
    rfl

theorem decFold_thumbnailSeg (a : Instance) (t : String)
    (rest : List (String × Json)) (ha : a.Thumbnail = "") :
    decFold instStep a (thumbnailSeg t ++ rest) =
      decFold instStep { a with Thumbnail := t } rest := by
  by_cases ht : t = ""
  · subst ht
    show decFold instStep a rest = decFold instStep { a with Thumbnail := "" } rest
    rw [← ha]
  · unfold thumbnailSeg
    rw [if_neg ht]
    simp only [List.cons_append, List.nil_append, decFold, instStep_thumbnail,
      decStringInto, Except.map]
    rfl

theorem decFold_urlsSeg (a : Instance) (u : Option (List (String × String)))
    (rest : List (String × Json)) (ha : a.URLs = none) (hg : GoodURLs u)
    (hne : u ≠ some []) :
    decFold instStep a (urlsSeg u ++ rest) =
      decFold instStep { a with URLs := u } rest := by
  rcases u with _ | m
  · show decFold instStep a rest = decFold instStep { a with URLs := none } rest
    rw [← ha]
  · rcases m with _ | ⟨kv, m⟩
    · exact absurd rfl hne
    · show decFold instStep a (("urls", encodeURLs (kv :: m)) :: rest) =
        decFold instStep { a with URLs := some (kv :: m) } rest
      simp only [decFold, instStep_urls, decStringMap_encodeURLs (kv :: m) hg,
        Except.map]

theorem decFold_statsSeg (a : Instance) (so : Option InstanceStats)
    (rest : List (String × Json)) (ha : a.Stats = none) (hg : GoodStatsOpt so) :
    decFold instStep a (statsSeg so ++ rest) =
      decFold instStep { a with Stats := so } rest := by
  rcases so with _ | s
  · show decFold instStep a rest = decFold instStep { a with Stats := none } rest
    rw [← ha]
  · show decFold instStep a (("stats", encodeStats s) :: rest) =
      decFold instStep { a with Stats := some s } rest
    simp only [decFold, instStep_stats, decStats_encodeStats s hg, Except.map]

theorem decFold_langStep (a : Instance) (ls : Option (List String))
    (rest : List (String × Json)) :
    decFold instStep a (("languages", encodeLanguages ls) :: rest) =
      decFold instStep { a with Languages := ls } rest := by
  simp only [decFold, instStep_languages, decLanguages_encode, Except.map]

theorem decFold_contactStep (a : Instance) (ca : Option Account)
    (rest : List (String × Json)) :
    decFold instStep a (("contact_account", contactVal ca) :: rest) =
      decFold instStep { a with ContactAccount := ca } rest := by
  cases ca with
  | none =>
    simp only [contactVal, decFold, instStep_contact, decAccountPtr, Except.map]
  | some x =>
    simp only [contactVal, decFold, instStep_contact,
      decAccountPtr_encodeAccount, Except.map]

theorem decFold_configStep (a : Instance) (co : Option InstanceConfig)
    (rest : List (String × Json)) (hg : GoodConfigOpt co) :
    decFold instStep a (("configuration", configVal co) :: rest) =
      decFold instStep { a with Configuration := co } rest := by
  cases co with
  | none =>
    simp only [configVal, decFold, instStep_configuration, decConfigPtr,
      Except.map]
  | some c =>
    simp only [configVal, decFold, instStep_configuration,
      decConfigPtr_encodeConfig c hg, Except.map]

theorem decodeInstance_encode_of_good (i : Instance) (hg : GoodInstance i)
    (hurls : i.URLs ≠ some []) :
    decodeInstanceJson (encodeInstance i) = Except.ok i := by
  obtain ⟨hu, hst, hcf⟩ := hg
  show decFold instStep Instance.zero
    ([("uri", Json.str i.URI), ("title", Json.str i.Title),
      ("description", Json.str i.Description), ("email", Json.str i.EMail)]
      ++ versionSeg i.Version
      ++ thumbnailSeg i.Thumbnail
      ++ urlsSeg i.URLs
      ++ statsSeg i.Stats
      ++ [("languages", encodeLanguages i.Languages)]
      ++ [("contact_account", contactVal i.ContactAccount)]
      ++ [("configuration", configVal i.Configuration)]) = Except.ok i
  simp only [List.append_assoc, List.cons_append, List.nil_append]
  simp only [decFold, instStep_uri, instStep_title, instStep_description,
    instStep_email, decStringInto, Except.map]
  rw [decFold_versionSeg _ _ _ rfl]
  rw [decFold_thumbnailSeg _ _ _ rfl]
  rw [decFold_urlsSeg _ _ _ rfl hu hurls]
  rw [decFold_statsSeg _ _ _ rfl hst]
  rw [decFold_langStep, decFold_contactStep]
  rw [decFold_configStep _ _ _ hcf]
  rfl

/-! ## Theorems for the claims -/

/-- C1: for each of the four operations, if doAPI returns an error, the
operation returns exactly that error value with no result, issuing the
single request and nothing more (no retry, no recovery). -/
theorem errors_propagate_unchanged :
    (∀ (o : DoAPI Instance) (e : APIError), o instanceRequest = Except.error e →
      GetInstance o = (Except.error e, [instanceRequest])) ∧
    (∀ (o : DoAPI InstanceV2) (e : APIError), o instanceV2Request = Except.error e →
      GetInstanceV2 o = (Except.error e, [instanceV2Request])) ∧
    (∀ (o : DoAPI (List (Option WeeklyActivity))) (e : APIError),
      o instanceActivityRequest = Except.error e →
      GetInstanceActivity o = (Except.error e, [instanceActivityRequest])) ∧
    (∀ (o : DoAPI (List String)) (e : APIError), o instancePeersRequest = Except.error e →
      GetInstancePeers o = (Except.error e, [instancePeersRequest])) := by
  refine ⟨?_, ?_, ?_, ?_⟩ <;> intro o e h <;>
    simp [GetInstance, GetInstanceV2, GetInstanceActivity, GetInstancePeers, h]

theorem errors_propagate_unchanged_witness :
    GetInstance (fun _ => Except.error (APIError.transport "connection refused")) =
      (Except.error (APIError.transport "connection refused"), [instanceRequest]) :=
  errors_propagate_unchanged.1 _ _ rfl

/-- C2: for GetInstance and GetInstanceV2, if doAPI succeeds, the
operation returns a nil error and exactly the record doAPI decoded into
the destination, unmodified. -/
theorem success_returns_decoded_record :
    (∀ (o : DoAPI Instance) (v : Instance), o instanceRequest = Except.ok v →
      GetInstance o = (Except.ok v, [instanceRequest])) ∧
    (∀ (o : DoAPI InstanceV2) (v : InstanceV2), o instanceV2Request = Except.ok v →
      GetInstanceV2 o = (Except.ok v, [instanceV2Request])) := by
  refine ⟨?_, ?_⟩ <;> intro o v h <;> simp [GetInstance, GetInstanceV2, h]

theorem success_returns_decoded_record_witness :
    GetInstance (fun _ => Except.ok Instance.zero) =
      (Except.ok Instance.zero, [instanceRequest]) :=
  success_returns_decoded_record.1 _ _ rfl

/-- C3: every call of each operation issues exactly one doAPI request,
with method GET, a nil request body, and the fixed path of that
operation. -/
theorem single_request_method_path :
    ∀ (o1 : DoAPI Instance) (o2 : DoAPI InstanceV2)
      (o3 : DoAPI (List (Option WeeklyActivity))) (o4 : DoAPI (List String)),
    (GetInstance o1).2 =
      [{ method := "GET", uri := "/api/v1/instance", params := none, pagination := none }] ∧
    (GetInstanceV2 o2).2 =
      [{ method := "GET", uri := "/api/v2/instance", params := none, pagination := none }] ∧
    (GetInstanceActivity o3).2 =
      [{ method := "GET", uri := "/api/v1/instance/activity", params := none, pagination := none }] ∧
    (GetInstancePeers o4).2 =
      [{ method := "GET", uri := "/api/v1/instance/peers", params := none, pagination := none }] := by
  intro o1 o2 o3 o4
  refine ⟨?_, ?_, ?_, ?_⟩
  · cases h : o1 instanceRequest <;> simp [GetInstance, h] <;> rfl
  · cases h : o2 instanceV2Request <;> simp [GetInstanceV2, h] <;> rfl
  · cases h : o3 instanceActivityRequest <;> simp [GetInstanceActivity, h] <;> rfl
  · cases h : o4 instancePeersRequest <;> simp [GetInstancePeers, h] <;> rfl

theorem single_request_method_path_witness :
    (GetInstance (fun _ => Except.ok Instance.zero)).2 =
      [{ method := "GET", uri := "/api/v1/instance", params := none, pagination := none }] :=
  (single_request_method_path (fun _ => Except.ok Instance.zero)
    (fun _ => Except.error (APIError.httpStatus 500))
    (fun _ => Except.ok []) (fun _ => Except.ok [])).1

/-- C4: GetConfig is a pure projection: for every Instance record,
including one whose configuration is absent, it returns exactly the
Configuration field. -/
theorem getConfig_is_projection :
    (∀ i : Instance, i.GetConfig = i.Configuration) ∧
    Instance.zero.GetConfig = none := by
  exact ⟨fun i => rfl, rfl⟩

theorem getConfig_is_projection_witness :
    Instance.zero.GetConfig = Instance.zero.Configuration :=
  getConfig_is_projection.1 Instance.zero

/-- C5: the activity and peers operations return the decoded sequence in
exactly the wire order: an array of strings decodes to the same list in
order, an array of activity buckets decodes elementwise in order, and
the concrete two-peer body from the tests decodes to the same two-element
list. -/
theorem sequences_preserve_wire_order :
    (∀ ss : List String,
      GetInstancePeers (jsonDoAPI (Json.arr (ss.map Json.str)) decodePeersBody) =
        (Except.ok ss, [instancePeersRequest])) ∧
    (∀ (es : List Json) (ws : List (Option WeeklyActivity)),
      es.mapM decWeeklyElem = Except.ok ws →
      GetInstanceActivity (jsonDoAPI (Json.arr es) decodeActivityBody) =
        (Except.ok ws, [instanceActivityRequest])) ∧
    GetInstancePeers (jsonDoAPI
        (Json.arr [Json.str "mastodon.social", Json.str "mstdn.jp"]) decodePeersBody) =
      (Except.ok ["mastodon.social", "mstdn.jp"], [instancePeersRequest]) := by
  refine ⟨?_, ?_, ?_⟩
  · intro ss
    have hd : decodePeersBody (Json.arr (ss.map Json.str)) = Except.ok ss :=
      mapM_decStringElem_strs ss
    simp [GetInstancePeers, jsonDoAPI, hd]
  · intro es ws h
    have hd : decodeActivityBody (Json.arr es) = Except.ok ws := h
    simp [GetInstanceActivity, jsonDoAPI, hd]
  · rfl

theorem sequences_preserve_wire_order_witness :
    GetInstancePeers (jsonDoAPI
        (Json.arr (["mastodon.social", "mstdn.jp"].map Json.str)) decodePeersBody) =
      (Except.ok ["mastodon.social", "mstdn.jp"], [instancePeersRequest]) ∧
    GetInstanceActivity (jsonDoAPI (Json.arr [Json.null]) decodeActivityBody) =
      (Except.ok [none], [instanceActivityRequest]) :=
  ⟨sequences_preserve_wire_order.1 ["mastodon.social", "mstdn.jp"],
    sequences_preserve_wire_order.2.1 [Json.null] [none] rfl⟩

/-- C6: the wire value "1516579200" for the week field decodes to the
point in time 2018-01-22T00:00:00Z, both at the field level and inside a
full WeeklyActivity record: the week string is read as Unix epoch
seconds. -/
theorem week_decodes_epoch_seconds :
    decUnixtime (Json.str "1516579200") = Except.ok ⟨epochOfUTC 2018 1 22 0 0 0⟩ ∧
    decodeWeeklyActivityJson (activityObj "1" "1" "0") =
      Except.ok { Week := ⟨epochOfUTC 2018 1 22 0 0 0⟩,
                  Statuses := 1, Logins := 1, Registrations := 0 } := by
  exact ⟨rfl, rfl⟩

/-- C7: a non-numeric string in any of the three counter fields of a
WeeklyActivity wire record makes the decode fail with a decode error; no
record is produced and the field is never silently zeroed, and the
failure surfaces through GetInstanceActivity. -/
theorem nonnumeric_counter_decode_fails :
    ∀ s : String, parseGoInt s = none →
      (∃ e, decodeWeeklyActivityJson (activityObj s "1" "0") = Except.error e) ∧
      (∃ e, decodeWeeklyActivityJson (activityObj "1" s "0") = Except.error e) ∧
      (∃ e, decodeWeeklyActivityJson (activityObj "1" "1" s) = Except.error e) ∧
      (∃ e, (GetInstanceActivity (jsonDoAPI (Json.arr [activityObj s "1" "0"])
        decodeActivityBody)).1 = Except.error (APIError.decode e)) := by
  intro s h
  have hbad : ∀ cur : Int, ∃ e, decInt64String cur (Json.str s) = Except.error e := by
    intro cur
    by_cases hq : goQuotedNumOk s = true
    · exact ⟨⟨"invalid number in quoted field"⟩, by simp [decInt64String, hq, h]⟩
    · exact ⟨⟨"invalid use of string option"⟩, by simp [decInt64String, hq]⟩
  obtain ⟨e, he⟩ := hbad 0
  have kw : keyMatch "week" "week" = true := by decide
  have ks1 : keyMatch "statuses" "week" = false := by decide
  have ks2 : keyMatch "statuses" "statuses" = true := by decide
  have kl1 : keyMatch "logins" "week" = false := by decide
  have kl2 : keyMatch "logins" "statuses" = false := by decide
  have kl3 : keyMatch "logins" "logins" = true := by decide
  have kr1 : keyMatch "registrations" "week" = false := by decide
  have kr2 : keyMatch "registrations" "statuses" = false := by decide
  have kr3 : keyMatch "registrations" "logins" = false := by decide
  have kr4 : keyMatch "registrations" "registrations" = true := by decide
  have hweek : decUnixtime (Json.str "1516579200") = Except.ok ⟨1516579200⟩ := rfl
  have hone : decInt64String 0 (Json.str "1") = Except.ok 1 := rfl
  have hrec1 : decodeWeeklyActivityJson (activityObj s "1" "0") = Except.error e := by
    simp [decodeWeeklyActivityJson, activityObj, decFold, waStep, kw, ks1, ks2,
      WeeklyActivity.zero, hweek, he, Except.map]
  have hrec2 : decodeWeeklyActivityJson (activityObj "1" s "0") = Except.error e := by
    simp [decodeWeeklyActivityJson, activityObj, decFold, waStep, kw, ks1, ks2,
      kl1, kl2, kl3, WeeklyActivity.zero, hweek, hone, he, Except.map]
  have hrec3 : decodeWeeklyActivityJson (activityObj "1" "1" s) = Except.error e := by
    simp [decodeWeeklyActivityJson, activityObj, decFold, waStep, kw, ks1, ks2,
      kl1, kl2, kl3, kr1, kr2, kr3, kr4, WeeklyActivity.zero, hweek, hone, he,
      Except.map]
  refine ⟨⟨e, hrec1⟩, ⟨e, hrec2⟩, ⟨e, hrec3⟩, ⟨e, ?_⟩⟩
  have hdw : decWeeklyElem (activityObj s "1" "0") = Except.error e := by
    show (decodeWeeklyActivityJson (activityObj s "1" "0")).map some = Except.error e
    rw [hrec1]; rfl
  have hb : decodeActivityBody (Json.arr [activityObj s "1" "0"]) = Except.error e := by
    show ([activityObj s "1" "0"].mapM decWeeklyElem) = Except.error e
    rw [List.mapM_cons, hdw]; rfl
  simp [GetInstanceActivity, jsonDoAPI, hb]

theorem nonnumeric_counter_decode_fails_witness :
    parseGoInt "abc" = none ∧
    (∃ e, decodeWeeklyActivityJson (activityObj "abc" "1" "0") = Except.error e) :=
  ⟨by decide, (nonnumeric_counter_decode_fails "abc" (by decide)).1⟩

/-- C9: the untagged Account field of the InstanceV2 Contact record is
matched by its exported identifier (case-insensitively), so a contact
object carrying an "account" key populates Contact.Account with the
decoded account record. -/
theorem contact_account_field_name_match :
    ∀ (e : String) (aj : Json) (acc : Account),
      decAccountPtr aj = Except.ok (some acc) →
      decodeContactV2Json (Json.obj [("email", Json.str e), ("account", aj)]) =
        Except.ok { Email := e, Account := some acc } := by
  intro e aj acc h
  have k1 : keyMatch "email" "email" = true := by decide
  have k2 : keyMatch "account" "email" = false := by decide
  have k3 : keyMatch "account" "Account" = true := by decide
  simp [decodeContactV2Json, decFold, contactStep, k1, k2, k3, decStringInto, h,
    Except.map]

theorem contact_account_field_name_match_witness :
    decodeContactV2Json (Json.obj [("email", Json.str "staff@mastodon.social"),
        ("account", Json.obj [("username", Json.str "Gargron")])]) =
      Except.ok { Email := "staff@mastodon.social",
                  Account := some { Username := "Gargron" } } :=
  contact_account_field_name_match "staff@mastodon.social"
    (Json.obj [("username", Json.str "Gargron")]) { Username := "Gargron" } rfl

/-- C8 fails as stated: a decoded Instance whose urls object is present
but empty re-encodes without the urls key (omitempty drops empty maps),
so the second decode returns an absent (nil) map instead of the decoded
empty one. -/
theorem roundtrip_empty_urls_counterexample :
    decodeInstanceJson emptyUrlsBody = Except.ok urlsEmptyInstance ∧
    decodeInstanceJson (encodeInstance urlsEmptyInstance) =
      Except.ok urlsAbsentInstance ∧
    urlsEmptyInstance ≠ urlsAbsentInstance := by
  refine ⟨rfl, rfl, ?_⟩
  intro hcontra
  have h2 := congrArg Instance.URLs hcontra
  simp [urlsEmptyInstance, urlsAbsentInstance, Instance.zero] at h2

/-- C8 amended: for every Instance obtained by decoding a JSON body,
encoding it back and decoding again yields a field-by-field equal
record, provided the decoded urls map is not present-but-empty (that
single case is collapsed to an absent map by omitempty). -/
theorem roundtrip_lossless_amended :
    ∀ (j : Json) (i : Instance), decodeInstanceJson j = Except.ok i →
      i.URLs ≠ some [] →
      decodeInstanceJson (encodeInstance i) = Except.ok i :=
  fun _ i h hne =>
    decodeInstance_encode_of_good i (decodeInstanceJson_good h) hne

theorem roundtrip_lossless_amended_witness :
    decodeInstanceJson (encodeInstance urlsAbsentInstance) =
      Except.ok urlsAbsentInstance :=
  roundtrip_lossless_amended
    (Json.obj [("uri", Json.str "http://mstdn.example.com")])
    urlsAbsentInstance rfl (by decide)

/-- C10: when doAPI succeeds on an empty JSON array or JSON null body,
GetInstancePeers and GetInstanceActivity return an empty sequence and no
error. -/
theorem empty_body_gives_empty_sequence :
    GetInstancePeers (jsonDoAPI (Json.arr []) decodePeersBody) =
      (Except.ok [], [instancePeersRequest]) ∧
    GetInstancePeers (jsonDoAPI Json.null decodePeersBody) =
      (Except.ok [], [instancePeersRequest]) ∧
    GetInstanceActivity (jsonDoAPI (Json.arr []) decodeActivityBody) =
      (Except.ok [], [instanceActivityRequest]) ∧
    GetInstanceActivity (jsonDoAPI Json.null decodeActivityBody) =
      (Except.ok [], [instanceActivityRequest]) := by
  exact ⟨rfl, rfl, rfl, rfl⟩

end MastodonSpec
